import Mathlib

/-!
Verification of the ScoutQuest service-discovery registry.

Server side: a shallow embedding of `scoutquest-server/src/registry.rs`
(the catalog and lifecycle manager) and of the health-check application
loop of `scoutquest-server/src/health_checker.rs`.

Client side: a shallow embedding of `scoutquest-rust/src/load_balancer.rs`
(instance selection) and of the retry wrapper of
`scoutquest-rust/src/client.rs`.

Conventions of the embedding:
* `DashMap` becomes an association list `List (String × α)` whose keys are
  unique in every reachable state; insertion order models iteration order.
* Timestamps (`DateTime<Utc>`) become `Nat`; each operation takes the
  current time `now` as an explicit argument (the code calls `Utc::now()`).
* `Uuid::new_v4()` becomes an explicit `instance_id` argument; freshness of
  the generated id is an explicit hypothesis where needed.
* Randomness (`rand::rng` / `fastrand`) becomes an explicit `rand : Nat`
  argument; the drawn index is `rand % len`, covering every possible draw.
* The broadcast bus becomes the list of events emitted by one operation.
-/

namespace ScoutQuest

/-- Status enum from `scoutquest-server/src/models.rs` (`InstanceStatus`). -/
inductive InstanceStatus
  | Up
  | Down
  | Starting
  | Stopping
  | OutOfService
  | Unknown
  deriving DecidableEq, Repr

/-- Health-check spec from `models.rs` (`HealthCheck`). -/
structure HealthCheck where
  url : String
  interval_seconds : Nat
  timeout_seconds : Nat
  method : String
  expected_status : Nat
  headers : Option (List (String × String))
  deriving DecidableEq, Repr

/-- Instance record from `models.rs` (`ServiceInstance`). -/
structure ServiceInstance where
  id : String
  service_name : String
  host : String
  port : Nat
  secure : Bool
  status : InstanceStatus
  metadata : List (String × String)
  tags : List String
  health_check : Option HealthCheck
  registered_at : Nat
  last_heartbeat : Nat
  last_status_change : Nat
  deriving DecidableEq, Repr

/-- Service record from `models.rs` (`Service`). -/
structure Service where
  name : String
  instances : List ServiceInstance
  tags : List String
  created_at : Nat
  updated_at : Nat
  deriving DecidableEq, Repr

/-- Event kinds from `models.rs` (`EventType`). -/
inductive EventType
  | ServiceRegistered
  | ServiceDeregistered
  | InstanceRegistered
  | InstanceDeregistered
  | InstanceStatusChanged
  | HealthCheckFailed
  | HealthCheckRecovered
  deriving DecidableEq, Repr

/-- The `details` JSON payloads built by `registry.rs`, one constructor per
`serde_json::json!` shape appearing in the source. `recovery p` stands for
`{"previous_status": p, "new_status": "Up"}` as built by `update_heartbeat`. -/
inductive EventDetails
  | registration (host : String) (port : Nat) (tags : List String)
  | deregistration (host : String) (port : Nat)
  | statusChange (previous_status : InstanceStatus) (new_status : InstanceStatus)
  | recovery (previous_status : InstanceStatus)
  deriving DecidableEq, Repr

/-- Event record from `models.rs` (`ServiceEvent`). -/
structure ServiceEvent where
  event_type : EventType
  service_name : String
  instance_id : Option String
  timestamp : Nat
  details : EventDetails
  deriving DecidableEq, Repr

/-- Registration request from `models.rs` (`RegisterServiceRequest`). -/
structure RegisterServiceRequest where
  service_name : String
  host : String
  port : Nat
  secure : Option Bool
  metadata : Option (List (String × String))
  tags : Option (List String)
  health_check : Option HealthCheck
  deriving DecidableEq, Repr

/-- Server-side strategy enum from `models.rs` (`LoadBalancingStrategy`). -/
inductive LoadBalancingStrategy
  | RoundRobin
  | Random
  | LeastConnections
  | WeightedRandom
  | HealthyOnly
  deriving DecidableEq, Repr

/-- Discovery query from `models.rs` (`DiscoveryQuery`). -/
structure DiscoveryQuery where
  healthy_only : Option Bool
  tags : Option String
  limit : Option Nat
  strategy : Option LoadBalancingStrategy
  deriving DecidableEq, Repr

/-- The two `DashMap`s plus the per-service round-robin counters of
`ServiceRegistry` in `registry.rs` (the broadcast sender carries no state
that the claims depend on; emitted events are returned by each operation). -/
structure ServiceRegistry where
  services : List (String × Service)
  instances : List (String × ServiceInstance)
  round_robin_counters : List (String × Nat)
  deriving DecidableEq, Repr

/-- `ServiceRegistry::new()`. -/
def ServiceRegistry.empty : ServiceRegistry :=
  { services := [], instances := [], round_robin_counters := [] }

/-- Association-list lookup, modelling `DashMap::get`. -/
def lookupA {α : Type} : List (String × α) → String → Option α
  | [], _ => none
  | (k, v) :: rest, key => if k = key then some v else lookupA rest key

/-- Association-list insert, modelling `DashMap::insert` (replace or append). -/
def insertA {α : Type} : List (String × α) → String → α → List (String × α)
  | [], key, v => [(key, v)]
  | (k, w) :: rest, key, v =>
      if k = key then (key, v) :: rest else (k, w) :: insertA rest key v

/-- In-place update of one entry, modelling mutation through `DashMap::get_mut`
(no effect when the key is absent). -/
def modifyA {α : Type} : List (String × α) → String → (α → α) → List (String × α)
  | [], _, _ => []
  | (k, v) :: rest, key, f =>
      if k = key then (k, f v) :: rest else (k, v) :: modifyA rest key f

/-- Association-list removal, modelling `DashMap::remove` (keys are unique in
reachable states, so removing the first hit removes the entry). -/
def removeA {α : Type} : List (String × α) → String → List (String × α)
  | [], _ => []
  | (k, v) :: rest, key => if k = key then rest else (k, v) :: removeA rest key

/-- The `ServiceInstance` literal that `register_instance` builds from the
request, the freshly drawn UUID and the current time. -/
def freshInstance (request : RegisterServiceRequest) (instance_id : String)
    (now : Nat) : ServiceInstance :=
  { id := instance_id
    service_name := request.service_name
    host := request.host
    port := request.port
    secure := request.secure.getD false
    status := InstanceStatus.Up
    metadata := request.metadata.getD []
    tags := request.tags.getD []
    health_check := request.health_check
    registered_at := now
    last_heartbeat := now
    last_status_change := now }

/-- `ServiceRegistry::register_instance`. The freshly drawn UUID and the
current time are explicit arguments. The code is infallible (always `Ok`). -/
def register_instance (r : ServiceRegistry) (request : RegisterServiceRequest)
    (instance_id : String) (now : Nat) :
    ServiceRegistry × ServiceEvent × ServiceInstance :=
  let inst : ServiceInstance := freshInstance request instance_id now
  let instances1 := insertA r.instances instance_id inst
  let service_existed := (lookupA r.services request.service_name).isSome
  let services1 :=
    if service_existed then
      modifyA r.services request.service_name (fun service =>
        { service with
            instances := service.instances ++ [inst]
            updated_at := now })
    else
      r.services ++ [(request.service_name,
        { name := request.service_name
          instances := [inst]
          tags := inst.tags
          created_at := now
          updated_at := now })]
  let event : ServiceEvent :=
    { event_type :=
        if service_existed then EventType.InstanceRegistered
        else EventType.ServiceRegistered
      service_name := request.service_name
      instance_id := some instance_id
      timestamp := now
      details := EventDetails.registration inst.host inst.port inst.tags }
  ({ r with instances := instances1, services := services1 }, event, inst)

/-- `ServiceRegistry::deregister_instance`. -/
def deregister_instance (r : ServiceRegistry) (instance_id : String) (now : Nat) :
    ServiceRegistry × List ServiceEvent × Bool :=
  match lookupA r.instances instance_id with
  | none => (r, [], false)
  | some inst =>
    let instances1 := removeA r.instances instance_id
    let removedPair :=
      match lookupA r.services inst.service_name with
      | none => (r.services, false)
      | some service =>
        let remaining := service.instances.filter (fun (i : ServiceInstance) => decide (i.id ≠ instance_id))
        if remaining.isEmpty then
          (removeA r.services inst.service_name, true)
        else
          (modifyA r.services inst.service_name (fun s =>
            { s with
                instances := s.instances.filter (fun (i : ServiceInstance) => decide (i.id ≠ instance_id))
                updated_at := now }), false)
    let event : ServiceEvent :=
      { event_type :=
          if removedPair.2 then EventType.ServiceDeregistered
          else EventType.InstanceDeregistered
        service_name := inst.service_name
        instance_id := some instance_id
        timestamp := now
        details := EventDetails.deregistration inst.host inst.port }
    ({ r with instances := instances1, services := removedPair.1 }, [event], true)

/-- `ServiceRegistry::update_heartbeat`. -/
def update_heartbeat (r : ServiceRegistry) (instance_id : String) (now : Nat) :
    ServiceRegistry × List ServiceEvent × Bool :=
  match lookupA r.instances instance_id with
  | none => (r, [], false)
  | some inst =>
    if inst.status = InstanceStatus.Up then
      ({ r with
          instances := modifyA r.instances instance_id (fun i =>
            { i with last_heartbeat := now }) }, [], true)
    else
      ({ r with
          instances := modifyA r.instances instance_id (fun i =>
            { i with
                last_heartbeat := now
                status := InstanceStatus.Up
                last_status_change := now }) },
       [{ event_type := EventType.HealthCheckRecovered
          service_name := inst.service_name
          instance_id := some instance_id
          timestamp := now
          details := EventDetails.recovery inst.status }], true)

/-- `ServiceRegistry::get_service_instances`. -/
def get_service_instances (r : ServiceRegistry) (service_name : String)
    (query : DiscoveryQuery) : List ServiceInstance :=
  let instances0 := ((lookupA r.services service_name).map Service.instances).getD []
  let instances1 :=
    if query.healthy_only.getD true then
      instances0.filter (fun i => decide (i.status = InstanceStatus.Up))
    else instances0
  let instances2 :=
    match query.tags with
    | none => instances1
    | some required_tags =>
      let tagList := required_tags.splitOn ","
      instances1.filter (fun i => tagList.all (fun tag => i.tags.contains tag))
  match query.limit with
  | none => instances2
  | some limit => instances2.take limit

/-- `ServiceRegistry::update_instance_status`. -/
def update_instance_status (r : ServiceRegistry) (instance_id : String)
    (status : InstanceStatus) (now : Nat) :
    ServiceRegistry × List ServiceEvent × Bool :=
  match lookupA r.instances instance_id with
  | none => (r, [], false)
  | some inst =>
    ({ r with
        instances := modifyA r.instances instance_id (fun i =>
          { i with status := status, last_status_change := now }) },
     [{ event_type := EventType.InstanceStatusChanged
        service_name := inst.service_name
        instance_id := some instance_id
        timestamp := now
        details := EventDetails.statusChange inst.status status }], true)

/-- `ServiceRegistry::get_all_services`. -/
def get_all_services (r : ServiceRegistry) : List Service :=
  r.services.map Prod.snd

/-- `ServiceRegistry::get_services_by_tag`. -/
def get_services_by_tag (r : ServiceRegistry) (tag : String) : List Service :=
  (r.services.filter (fun entry => entry.2.tags.contains tag)).map Prod.snd

/-- `ServiceRegistry::get_all_instances`. -/
def get_all_instances (r : ServiceRegistry) : List ServiceInstance :=
  r.instances.map Prod.snd

/-- `ServiceRegistry::load_balance_service`. `rand` is the random draw used
by the `Random` and `WeightedRandom` arms (`instances.choose`); the drawn
index is `rand % len`. The round-robin arm reads and bumps the per-service
counter (`entry...or_insert(0)` then `fetch_add(1)`). -/
def load_balance_service (r : ServiceRegistry) (service_name : String)
    (strategy : LoadBalancingStrategy) (rand : Nat) :
    ServiceRegistry × Option ServiceInstance :=
  let query : DiscoveryQuery :=
    { healthy_only := some true, tags := none, limit := none, strategy := some strategy }
  let instances := get_service_instances r service_name query
  if instances.isEmpty then (r, none)
  else
    match strategy with
    | LoadBalancingStrategy.Random => (r, instances.get? (rand % instances.length))
    | LoadBalancingStrategy.RoundRobin =>
      let counter := (lookupA r.round_robin_counters service_name).getD 0
      ({ r with round_robin_counters :=
            insertA r.round_robin_counters service_name (counter + 1) },
       instances.get? (counter % instances.length))
    | LoadBalancingStrategy.LeastConnections => (r, instances.head?)
    | LoadBalancingStrategy.WeightedRandom => (r, instances.get? (rand % instances.length))
    | LoadBalancingStrategy.HealthyOnly => (r, instances.head?)

/-- The body of the per-instance loop of
`HealthChecker::check_all_instances` in `health_checker.rs`, applied to one
instance that carries a health-check spec. `healthy` is the probe outcome
(`check_instance_health`); `instance` is the snapshot read from the index.
The code computes `new_status` from `healthy` and calls
`update_instance_status` unless the pair (old, new) is (Up, Up) or
(Down, Down). -/
def apply_health_result (r : ServiceRegistry) (inst : ServiceInstance)
    (healthy : Bool) (now : Nat) : ServiceRegistry × List ServiceEvent :=
  let new_status := if healthy then InstanceStatus.Up else InstanceStatus.Down
  if (inst.status = InstanceStatus.Up ∧ new_status = InstanceStatus.Up) ∨
     (inst.status = InstanceStatus.Down ∧ new_status = InstanceStatus.Down) then
    (r, [])
  else
    let stepped := update_instance_status r inst.id new_status now
    (stepped.1, stepped.2.1)

namespace Sdk

/-- Client-side status enum from `scoutquest-rust/src/models.rs`. -/
inductive InstanceStatus
  | Up
  | Down
  | Starting
  | Stopping
  | OutOfService
  | Unknown
  deriving DecidableEq, Repr, Inhabited

/-- Client-side instance record from `scoutquest-rust/src/models.rs`
(`ServiceInstance`; unlike the server record it has no health-check field). -/
structure ServiceInstance where
  id : String
  service_name : String
  host : String
  port : Nat
  secure : Bool
  status : InstanceStatus
  metadata : List (String × String)
  tags : List String
  registered_at : Nat
  last_heartbeat : Nat
  last_status_change : Nat
  deriving DecidableEq, Repr, Inhabited

/-- `ServiceInstance::is_healthy`. -/
def ServiceInstance.is_healthy (i : ServiceInstance) : Bool :=
  i.status = InstanceStatus.Up

/-- The SDK error enum from `scoutquest-rust/src/error.rs` (`ScoutQuestError`).
Payloads carried through foreign types (`reqwest::Error`, `serde_json::Error`,
`url::ParseError`) are abstracted to strings. -/
inductive ScoutQuestError
  | NetworkError (message : String)
  | ServiceNotFound (service_name : String)
  | InstanceNotFound (instance_id : String)
  | RegistrationFailed (status : Nat) (message : String)
  | SerializationError (message : String)
  | InvalidUrl (message : String)
  | ServerUnavailable
  | Timeout
  | NoHealthyInstances (service_name : String)
  | InternalError (message : String)
  deriving DecidableEq, Repr

/-- Client-side strategy enum from `scoutquest-rust/src/load_balancer.rs`. -/
inductive LoadBalancingStrategy
  | Random
  | RoundRobin
  | LeastConnections
  | WeightedRandom
  | HealthyOnly
  deriving DecidableEq, Repr

/-- `LoadBalancer::select_instance` from `scoutquest-rust/src/load_balancer.rs`.
`ctr` is the current value of the `round_robin_counter` atomic (returned
updated as the second component; `fetch_add(1)` runs only in the round-robin
arm); `rand` is the draw of `fastrand::usize(0..len)`, the used index being
`rand % len`. Indexing `target_instances[index]` with `index < len` is modelled
by `getD` (the default is unreachable). -/
def select_instance (instances : List ServiceInstance)
    (strategy : LoadBalancingStrategy) (ctr : Nat) (rand : Nat) :
    Except ScoutQuestError ServiceInstance × Nat :=
  if instances.isEmpty then
    (Except.error (ScoutQuestError.InternalError "Aucune instance disponible"), ctr)
  else
    let healthy_instances := instances.filter ServiceInstance.is_healthy
    let target_instances :=
      if healthy_instances.isEmpty then instances else healthy_instances
    match strategy with
    | LoadBalancingStrategy.Random =>
      (Except.ok (target_instances.getD (rand % target_instances.length) default), ctr)
    | LoadBalancingStrategy.RoundRobin =>
      (Except.ok (target_instances.getD (ctr % target_instances.length) default), ctr + 1)
    | LoadBalancingStrategy.LeastConnections =>
      (Except.ok (target_instances.getD 0 default), ctr)
    | LoadBalancingStrategy.WeightedRandom =>
      (Except.ok (target_instances.getD (rand % target_instances.length) default), ctr)
    | LoadBalancingStrategy.HealthyOnly =>
      if healthy_instances.isEmpty then
        (Except.error (ScoutQuestError.NoHealthyInstances
          (instances.getD 0 default).service_name), ctr)
      else
        (Except.ok (healthy_instances.getD 0 default), ctr)

/-- `n` consecutive `select_instance` calls with the `RoundRobin` strategy over
a fixed candidate list, threading the counter exactly as the atomic is
threaded between calls. -/
def rr_select_run (instances : List ServiceInstance) (ctr : Nat) :
    Nat → List (Except ScoutQuestError ServiceInstance)
  | 0 => []
  | n + 1 =>
    let step := select_instance instances LoadBalancingStrategy.RoundRobin ctr 0
    step.1 :: rr_select_run instances step.2 n

/-- The retry loop of `ServiceDiscoveryClient::call_service` in
`scoutquest-rust/src/client.rs`, from loop variable `attempt` upward.
`tryCall a` is the outcome of `try_call_service` on attempt `a` (each attempt
re-resolves and re-picks, so outcomes are indexed by the attempt number).
The result pairs the returned value with the chronological list of sleep
durations (`retry_delay * attempt`). Falling out of the loop (`unreachable!`,
possible only when `retry_attempts = 0`) is `none`. -/
def call_loop {α : Type} (tryCall : Nat → Except ScoutQuestError α)
    (retry_attempts : Nat) (retry_delay : Nat) (attempt : Nat) :
    Option (Except ScoutQuestError α × List Nat) :=
  if _h : retry_attempts < attempt then none
  else
    match tryCall attempt with
    | Except.ok v => some (Except.ok v, [])
    | Except.error e =>
      if attempt = retry_attempts then some (Except.error e, [])
      else
        match call_loop tryCall retry_attempts retry_delay (attempt + 1) with
        | none => none
        | some (res, sleeps) => some (res, retry_delay * attempt :: sleeps)
  termination_by retry_attempts + 1 - attempt
  decreasing_by omega

/-- `ServiceDiscoveryClient::call_service`: the loop starts at attempt 1. -/
def call_service {α : Type} (tryCall : Nat → Except ScoutQuestError α)
    (retry_attempts : Nat) (retry_delay : Nat) :
    Option (Except ScoutQuestError α × List Nat) :=
  call_loop tryCall retry_attempts retry_delay 1

end Sdk

/-! Concrete fixtures used by counterexamples and witnesses. -/

/-- A plain registration request for service `svc`. -/
def exReq : RegisterServiceRequest :=
  { service_name := "svc", host := "h", port := 80, secure := none,
    metadata := none, tags := none, health_check := none }

/-- Registry holding the single instance `i1` of `svc`, freshly registered
(status `Up` in both indices). -/
def exRegUp : ServiceRegistry :=
  (register_instance ServiceRegistry.empty exReq "i1" 0).1

/-- The instance produced by that registration. -/
def exInst : ServiceInstance :=
  (register_instance ServiceRegistry.empty exReq "i1" 0).2.2

/-- `exRegUp` after an administrative status update of `i1` to `Down`:
the instance-index record is `Down`, the copy inside the `svc` service
record still reads `Up`. -/
def exRegDown : ServiceRegistry :=
  (update_instance_status exRegUp "i1" InstanceStatus.Down 1).1

/-- Discovery query with `healthy_only = Some(true)` and no other filter. -/
def exQueryHealthy : DiscoveryQuery :=
  { healthy_only := some true, tags := none, limit := none, strategy := none }

/-- A registration request that the spec declares out of bounds: empty
service name and port `0`. -/
def exBadReq : RegisterServiceRequest :=
  { service_name := "", host := "h", port := 0, secure := none,
    metadata := none, tags := none, health_check := none }

/-- A second query fixture: `healthy_only = Some(false)`, no tag filter,
no limit. -/
def exQueryAll : DiscoveryQuery :=
  { healthy_only := some false, tags := none, limit := none, strategy := none }

/-- The instance list stored in the service record for `name` (empty when
the service is absent): the base collection that discovery reads. -/
def serviceInstancesOf (r : ServiceRegistry) (name : String) :
    List ServiceInstance :=
  ((lookupA r.services name).map Service.instances).getD []

/-- Stage 1 of the discovery pipeline as the spec words it: the healthy
filter, applied first and defaulting to true when `healthy_only` is
unspecified. -/
def healthyStage (healthy_only : Option Bool) (l : List ServiceInstance) :
    List ServiceInstance :=
  if healthy_only.getD true then
    l.filter (fun i => decide (i.status = InstanceStatus.Up))
  else l

/-- Stage 2 as the spec words it: keep only instances carrying every
required (comma-separated) tag. -/
def tagStage (tags : Option String) (l : List ServiceInstance) :
    List ServiceInstance :=
  match tags with
  | none => l
  | some required =>
    l.filter (fun i => (required.splitOn ",").all (fun t => i.tags.contains t))

/-- Stage 3 as the spec words it: truncation to the limit. -/
def limitStage (limit : Option Nat) (l : List ServiceInstance) :
    List ServiceInstance :=
  match limit with
  | none => l
  | some n => l.take n

/-- The ids stored in a service record's instance list. -/
def Service.instanceIds (s : Service) : List String :=
  s.instances.map ServiceInstance.id

/-- One lifecycle mutation of the catalog: the four operations of the
lifecycle manager. Registration draws an id that is fresh for the instance
index, which models the global-uniqueness assumption on `Uuid::new_v4`. -/
inductive Step : ServiceRegistry → ServiceRegistry → Prop
  | register (r : ServiceRegistry) (req : RegisterServiceRequest) (id : String)
      (now : Nat) (hfresh : lookupA r.instances id = none) :
      Step r (register_instance r req id now).1
  | deregister (r : ServiceRegistry) (id : String) (now : Nat) :
      Step r (deregister_instance r id now).1
  | heartbeat (r : ServiceRegistry) (id : String) (now : Nat) :
      Step r (update_heartbeat r id now).1
  | status (r : ServiceRegistry) (id : String) (st : InstanceStatus) (now : Nat) :
      Step r (update_instance_status r id st now).1

/-- Registry states reachable from the empty catalog by lifecycle
mutations. -/
inductive Reachable : ServiceRegistry → Prop
  | init : Reachable ServiceRegistry.empty
  | step {r r2 : ServiceRegistry} : Reachable r → Step r r2 → Reachable r2

/-- Coherence of the two catalog indices, maintained by every lifecycle
mutation: keys are unique; each index record carries its own key as id and
is listed in the service record named by its `service_name`; each service
record is non-empty and its member instances carry the service's name and
are backed by an index entry whose `service_name` is that service. -/
structure Coherent (r : ServiceRegistry) : Prop where
  inst_keys_nodup : (r.instances.map Prod.fst).Nodup
  serv_keys_nodup : (r.services.map Prod.fst).Nodup
  inst_key_id : ∀ p ∈ r.instances, p.2.id = p.1
  inst_linked : ∀ p ∈ r.instances,
    ∃ s, lookupA r.services p.2.service_name = some s ∧ p.1 ∈ s.instanceIds
  serv_nonempty : ∀ q ∈ r.services, q.2.instances ≠ []
  serv_inst_name : ∀ q ∈ r.services, ∀ i ∈ q.2.instances, i.service_name = q.1
  serv_inst_index : ∀ q ∈ r.services, ∀ i ∈ q.2.instances,
    ∃ v, lookupA r.instances i.id = some v ∧ v.service_name = q.1

namespace Sdk

/-- The pool `select_instance` draws from (its `target_instances` local):
the healthy subset when non-empty, otherwise the full candidate list. -/
def target_pool (instances : List ServiceInstance) : List ServiceInstance :=
  let healthy_instances := instances.filter ServiceInstance.is_healthy
  if healthy_instances.isEmpty then instances else healthy_instances

/-- Fixture: an `Up` instance of service `s`. -/
def exUp1 : ServiceInstance :=
  { id := "a", service_name := "s", host := "h1", port := 1, secure := false,
    status := InstanceStatus.Up, metadata := [], tags := [],
    registered_at := 0, last_heartbeat := 0, last_status_change := 0 }

/-- Fixture: a second `Up` instance of service `s`. -/
def exUp2 : ServiceInstance :=
  { exUp1 with id := "b", host := "h2", port := 2 }

/-- Fixture: a `Down` instance of service `s`. -/
def exDown : ServiceInstance :=
  { exUp1 with id := "c", host := "h3", port := 3,
               status := InstanceStatus.Down }

/-- Fixture: an attempt oracle failing on attempt 1 and succeeding on
attempt 2. -/
def exTryCall : Nat → Except ScoutQuestError Nat :=
  fun j => if j = 2 then Except.ok 42 else Except.error ScoutQuestError.Timeout

/-- Fixture: an attempt oracle that always fails. -/
def exTryCallFail : Nat → Except ScoutQuestError Nat :=
  fun _ => Except.error ScoutQuestError.ServerUnavailable

end Sdk

/-! ### Association-list lemmas -/

theorem lookupA_modifyA_self {α : Type} (l : List (String × α)) (k : String) (f : α → α) :
    lookupA (modifyA l k f) k = (lookupA l k).map f := by
  induction l with
  | nil => simp [lookupA, modifyA]
  | cons p rest ih =>
    obtain ⟨k1, v1⟩ := p
    by_cases h : k1 = k
    · simp [lookupA, modifyA, h]
    · simp [lookupA, modifyA, h, ih]

theorem lookupA_modifyA_ne {α : Type} (l : List (String × α)) {k k' : String}
    (f : α → α) (h : k' ≠ k) :
    lookupA (modifyA l k f) k' = lookupA l k' := by
  induction l with
  | nil => simp [lookupA, modifyA]
  | cons p rest ih =>
    obtain ⟨k1, v1⟩ := p
    by_cases h1 : k1 = k
    · subst h1
      simp [lookupA, modifyA, Ne.symm h]
    · by_cases h2 : k1 = k'
      · subst h2
        simp [lookupA, modifyA, h1, Ne.symm h]
      · simp [lookupA, modifyA, h1, h2, ih]

theorem modifyA_keys {α : Type} (l : List (String × α)) (k : String) (f : α → α) :
    (modifyA l k f).map Prod.fst = l.map Prod.fst := by
  induction l with
  | nil => simp [modifyA]
  | cons p rest ih =>
    obtain ⟨k1, v1⟩ := p
    by_cases h : k1 = k
    · simp [modifyA, h]
    · simp [modifyA, h, ih]

theorem lookupA_insertA_self {α : Type} (l : List (String × α)) (k : String) (v : α) :
    lookupA (insertA l k v) k = some v := by
  induction l with
  | nil => simp [lookupA, insertA]
  | cons p rest ih =>
    obtain ⟨k1, v1⟩ := p
    by_cases h : k1 = k
    · simp [lookupA, insertA, h]
    · simp [lookupA, insertA, h, ih]

theorem lookupA_insertA_ne {α : Type} (l : List (String × α)) {k k' : String}
    (v : α) (h : k' ≠ k) :
    lookupA (insertA l k v) k' = lookupA l k' := by
  induction l with
  | nil => simp [lookupA, insertA, Ne.symm h]
  | cons p rest ih =>
    obtain ⟨k1, v1⟩ := p
    by_cases h1 : k1 = k
    · subst h1
      simp [lookupA, insertA, Ne.symm h]
    · by_cases h2 : k1 = k'
      · subst h2
        simp [lookupA, insertA, h1, Ne.symm h, h]
      · simp [lookupA, insertA, h1, h2, ih]

theorem insertA_of_lookupA_none {α : Type} (l : List (String × α)) {k : String}
    (v : α) (h : lookupA l k = none) :
    insertA l k v = l ++ [(k, v)] := by
  induction l with
  | nil => simp [insertA]
  | cons p rest ih =>
    obtain ⟨k1, v1⟩ := p
    by_cases h1 : k1 = k
    · simp [lookupA, h1] at h
    · simp [lookupA, h1] at h
      simp [insertA, h1, ih h]

theorem lookupA_eq_none_iff {α : Type} (l : List (String × α)) (k : String) :
    lookupA l k = none ↔ k ∉ l.map Prod.fst := by
  induction l with
  | nil => simp [lookupA]
  | cons p rest ih =>
    obtain ⟨k1, v1⟩ := p
    by_cases h : k1 = k
    · simp [lookupA, h]
    · simp [lookupA, h, ih, Ne.symm h]

theorem lookupA_append_of_none {α : Type} {l : List (String × α)} (l2 : List (String × α))
    {k : String} (h : lookupA l k = none) :
    lookupA (l ++ l2) k = lookupA l2 k := by
  induction l with
  | nil => simp
  | cons p rest ih =>
    obtain ⟨k1, v1⟩ := p
    by_cases h1 : k1 = k
    · simp [lookupA, h1] at h
    · simp [lookupA, h1] at h ⊢
      exact ih h

theorem lookupA_removeA_ne {α : Type} (l : List (String × α)) {k k' : String}
    (h : k' ≠ k) :
    lookupA (removeA l k) k' = lookupA l k' := by
  induction l with
  | nil => simp [lookupA, removeA]
  | cons p rest ih =>
    obtain ⟨k1, v1⟩ := p
    by_cases h1 : k1 = k
    · subst h1
      simp [lookupA, removeA, Ne.symm h]
    · by_cases h2 : k1 = k'
      · subst h2
        simp [lookupA, removeA, h1, h]
      · simp [lookupA, removeA, h1, h2, ih]

theorem removeA_sublist {α : Type} (l : List (String × α)) (k : String) :
    (removeA l k).Sublist l := by
  induction l with
  | nil => simp [removeA]
  | cons p rest ih =>
    obtain ⟨k1, v1⟩ := p
    by_cases h : k1 = k
    · simp [removeA, h]
    · simp only [removeA, h, if_false]
      exact ih.cons₂ _

theorem lookupA_mem {α : Type} {l : List (String × α)} {k : String} {v : α}
    (h : lookupA l k = some v) : (k, v) ∈ l := by
  induction l with
  | nil => simp [lookupA] at h
  | cons p rest ih =>
    obtain ⟨k1, v1⟩ := p
    by_cases h1 : k1 = k
    · subst h1
      simp only [lookupA, if_pos rfl, if_true, Option.some.injEq] at h
      subst h
      exact List.mem_cons_self _ _
    · simp only [lookupA, if_neg h1] at h
      exact List.mem_cons_of_mem _ (ih h)

theorem lookupA_of_mem_nodup {α : Type} {l : List (String × α)}
    (hnd : (l.map Prod.fst).Nodup) {p : String × α} (hp : p ∈ l) :
    lookupA l p.1 = some p.2 := by
  induction l with
  | nil => simp at hp
  | cons q rest ih =>
    obtain ⟨k1, v1⟩ := q
    simp only [List.map_cons, List.nodup_cons] at hnd
    rcases List.mem_cons.mp hp with heq | hmem
    · subst heq
      simp [lookupA]
    · have hk : k1 ≠ p.1 := by
        intro h
        exact hnd.1 (h ▸ List.mem_map_of_mem Prod.fst hmem)
      simp only [lookupA, if_neg hk]
      exact ih hnd.2 hmem

theorem eq_of_mem_nodup_keys {α : Type} {l : List (String × α)}
    (hnd : (l.map Prod.fst).Nodup) {p q : String × α}
    (hp : p ∈ l) (hq : q ∈ l) (hk : p.1 = q.1) : p = q := by
  have h1 := lookupA_of_mem_nodup hnd hp
  have h2 := lookupA_of_mem_nodup hnd hq
  rw [hk, h2, Option.some.injEq] at h1
  exact Prod.ext hk h1.symm

theorem modifyA_of_lookupA_none {α : Type} {l : List (String × α)} {k : String}
    (h : lookupA l k = none) (f : α → α) : modifyA l k f = l := by
  induction l with
  | nil => simp [modifyA]
  | cons p rest ih =>
    obtain ⟨k1, v1⟩ := p
    by_cases h1 : k1 = k
    · simp [lookupA, h1] at h
    · simp only [lookupA, if_neg h1] at h
      simp [modifyA, h1, ih h]

theorem mem_modifyA_iff {α : Type} {l : List (String × α)}
    (hnd : (l.map Prod.fst).Nodup) {k : String} {v : α}
    (hv : lookupA l k = some v) (f : α → α) {p : String × α} :
    p ∈ modifyA l k f ↔ ((p ∈ l ∧ p.1 ≠ k) ∨ p = (k, f v)) := by
  induction l with
  | nil => simp [lookupA] at hv
  | cons q rest ih =>
    obtain ⟨k1, v1⟩ := q
    simp only [List.map_cons, List.nodup_cons] at hnd
    by_cases h1 : k1 = k
    · subst h1
      simp only [lookupA, if_pos rfl, if_true, Option.some.injEq] at hv
      subst hv
      simp only [modifyA, if_pos rfl]
      constructor
      · intro hmem
        rcases List.mem_cons.mp hmem with heq | hmem2
        · right; exact heq
        · left
          refine ⟨List.mem_cons_of_mem _ hmem2, fun hpk => ?_⟩
          exact hnd.1 (hpk ▸ List.mem_map_of_mem Prod.fst hmem2)
      · rintro (⟨hmem, hne⟩ | heq)
        · rcases List.mem_cons.mp hmem with heq2 | hmem2
          · exact absurd (congrArg Prod.fst heq2) hne
          · exact List.mem_cons_of_mem _ hmem2
        · exact heq ▸ List.mem_cons_self _ _
    · simp only [lookupA, if_neg h1] at hv
      simp only [modifyA, if_neg h1]
      constructor
      · intro hmem
        rcases List.mem_cons.mp hmem with heq | hmem2
        · subst heq
          exact Or.inl ⟨List.mem_cons_self _ _, h1⟩
        · rcases (ih hnd.2 hv).mp hmem2 with ⟨hm, hne⟩ | heq
          · exact Or.inl ⟨List.mem_cons_of_mem _ hm, hne⟩
          · exact Or.inr heq
      · rintro (⟨hmem, hne⟩ | heq)
        · rcases List.mem_cons.mp hmem with heq2 | hmem2
          · exact heq2 ▸ List.mem_cons_self _ _
          · exact List.mem_cons_of_mem _ ((ih hnd.2 hv).mpr (Or.inl ⟨hmem2, hne⟩))
        · exact List.mem_cons_of_mem _ ((ih hnd.2 hv).mpr (Or.inr heq))

theorem mem_removeA_iff {α : Type} {l : List (String × α)}
    (hnd : (l.map Prod.fst).Nodup) {k : String} {p : String × α} :
    p ∈ removeA l k ↔ p ∈ l ∧ p.1 ≠ k := by
  induction l with
  | nil => simp [removeA]
  | cons q rest ih =>
    obtain ⟨k1, v1⟩ := q
    simp only [List.map_cons, List.nodup_cons] at hnd
    by_cases h1 : k1 = k
    · subst h1
      simp only [removeA, if_pos rfl]
      constructor
      · intro hmem
        refine ⟨List.mem_cons_of_mem _ hmem, fun hpk => ?_⟩
        exact hnd.1 (hpk ▸ List.mem_map_of_mem Prod.fst hmem)
      · rintro ⟨hmem, hne⟩
        rcases List.mem_cons.mp hmem with heq | hmem2
        · exact absurd (congrArg Prod.fst heq) hne
        · exact hmem2
    · simp only [removeA, if_neg h1]
      constructor
      · intro hmem
        rcases List.mem_cons.mp hmem with heq | hmem2
        · subst heq
          exact ⟨List.mem_cons_self _ _, h1⟩
        · obtain ⟨hm, hne⟩ := (ih hnd.2).mp hmem2
          exact ⟨List.mem_cons_of_mem _ hm, hne⟩
      · rintro ⟨hmem, hne⟩
        rcases List.mem_cons.mp hmem with heq | hmem2
        · exact heq ▸ List.mem_cons_self _ _
        · exact List.mem_cons_of_mem _ ((ih hnd.2).mpr ⟨hmem2, hne⟩)

theorem lookupA_removeA_self {α : Type} {l : List (String × α)}
    (hnd : (l.map Prod.fst).Nodup) (k : String) :
    lookupA (removeA l k) k = none := by
  rw [lookupA_eq_none_iff]
  intro hmem
  obtain ⟨p, hp, hpk⟩ := List.mem_map.mp hmem
  exact ((mem_removeA_iff hnd).mp hp).2 hpk

theorem lookupA_append_left {α : Type} {l : List (String × α)}
    (l2 : List (String × α)) {k : String} {v : α}
    (h : lookupA l k = some v) : lookupA (l ++ l2) k = some v := by
  induction l with
  | nil => simp [lookupA] at h
  | cons p rest ih =>
    obtain ⟨k1, v1⟩ := p
    by_cases h1 : k1 = k
    · subst h1
      simp only [lookupA, if_pos rfl, if_true, Option.some.injEq] at h
      simp [lookupA, h]
    · simp only [lookupA, if_neg h1] at h
      simpa [lookupA, h1] using ih h

/-- Queries that read only the service index are insensitive to changes in
the other registry components. -/
theorem get_service_instances_congr {r1 r2 : ServiceRegistry}
    (h : r1.services = r2.services) (name : String) (q : DiscoveryQuery) :
    get_service_instances r1 name q = get_service_instances r2 name q := by
  simp [get_service_instances, h]

/-! ### Claim theorems -/

/-- C3: for an id in the instance index, `update_heartbeat` sets
`last_heartbeat` to now and touches nothing else when the status is `Up`;
when the status is not `Up` it additionally sets the status to `Up` and
`last_status_change` to now and emits exactly one `HealthCheckRecovered`
event carrying the previous status, returning true; for an unknown id it
returns false and leaves the catalog unchanged. -/
theorem update_heartbeat_spec (r : ServiceRegistry) (id : String) (now : Nat) :
    (∀ inst, lookupA r.instances id = some inst →
      (inst.status = InstanceStatus.Up →
        update_heartbeat r id now =
          ({ r with
              instances := modifyA r.instances id
                             (fun i => { i with last_heartbeat := now }) },
           [], true)) ∧
      (inst.status ≠ InstanceStatus.Up →
        update_heartbeat r id now =
          ({ r with
              instances := modifyA r.instances id
                             (fun i => { i with
                                           last_heartbeat := now
                                           status := InstanceStatus.Up
                                           last_status_change := now }) },
           [{ event_type := EventType.HealthCheckRecovered
              service_name := inst.service_name
              instance_id := some id
              timestamp := now
              details := EventDetails.recovery inst.status }], true))) ∧
    (lookupA r.instances id = none →
      update_heartbeat r id now = (r, [], false)) := by
  refine ⟨fun inst h => ⟨fun hup => ?_, fun hnot => ?_⟩, fun h => ?_⟩
  · simp [update_heartbeat, h, hup]
  · simp [update_heartbeat, h, hnot]
  · simp [update_heartbeat, h]

theorem update_heartbeat_spec_witness :
    update_heartbeat exRegUp "i1" 5 =
      ({ exRegUp with
          instances := modifyA exRegUp.instances "i1"
                         (fun i => { i with last_heartbeat := 5 }) },
       [], true) :=
  ((update_heartbeat_spec exRegUp "i1" 5).1 exInst (by decide)).1 (by decide)

/-- C2: `update_heartbeat` and `update_instance_status` mutate only the
instance index; the service index (holding the copies written at
registration) is untouched, so `get_service_instances`, `get_all_services`
and `get_services_by_tag` observe exactly the same answers before and after
either mutation. -/
theorem mutators_preserve_service_records (r : ServiceRegistry) (id : String)
    (now : Nat) (st : InstanceStatus) (name tag : String) (q : DiscoveryQuery) :
    (update_heartbeat r id now).1.services = r.services ∧
    (update_instance_status r id st now).1.services = r.services ∧
    get_service_instances (update_heartbeat r id now).1 name q
      = get_service_instances r name q ∧
    get_service_instances (update_instance_status r id st now).1 name q
      = get_service_instances r name q ∧
    get_all_services (update_heartbeat r id now).1 = get_all_services r ∧
    get_all_services (update_instance_status r id st now).1 = get_all_services r ∧
    get_services_by_tag (update_heartbeat r id now).1 tag
      = get_services_by_tag r tag ∧
    get_services_by_tag (update_instance_status r id st now).1 tag
      = get_services_by_tag r tag := by
  have hb : (update_heartbeat r id now).1.services = r.services := by
    unfold update_heartbeat
    cases h : lookupA r.instances id with
    | none => simp
    | some inst =>
      by_cases hup : inst.status = InstanceStatus.Up <;> simp [hup]
  have hs : (update_instance_status r id st now).1.services = r.services := by
    unfold update_instance_status
    cases h : lookupA r.instances id with
    | none => simp
    | some inst => simp
  refine ⟨hb, hs, get_service_instances_congr hb name q,
    get_service_instances_congr hs name q, ?_, ?_, ?_, ?_⟩ <;>
    simp [get_all_services, get_services_by_tag, hb, hs]

/-- C1 counterexample: after registering `i1` (status `Up`) and then
administratively setting its status to `Down`, discovery with
`healthy_only = true` still returns `i1`, even though the current status of
`i1` in the instance index is `Down` — the healthy filter reads the stale
copy embedded in the service record, so the claim as stated is false. -/
theorem discovery_healthy_counterexample :
    (get_service_instances exRegDown "svc" exQueryHealthy).map ServiceInstance.id
      = ["i1"] ∧
    (lookupA exRegDown.instances "i1").map ServiceInstance.status
      = some InstanceStatus.Down := by
  decide

/-- C1 (amended): `get_service_instances` applies the healthy filter first
(defaulting to true when unspecified), then the tag filter, then the limit;
with the healthy filter active every returned instance has status `Up` *as
recorded in the service record's embedded copy* (the instance index may
disagree, see the counterexample); with `healthy_only = false` and no other
filter, all of the service's recorded instances are returned. -/
theorem get_service_instances_spec (r : ServiceRegistry) (name : String)
    (q : DiscoveryQuery) :
    get_service_instances r name q =
      limitStage q.limit
        (tagStage q.tags (healthyStage q.healthy_only (serviceInstancesOf r name))) ∧
    (q.healthy_only.getD true = true →
      ∀ i ∈ get_service_instances r name q, i.status = InstanceStatus.Up) ∧
    (q.healthy_only = some false → q.tags = none → q.limit = none →
      get_service_instances r name q = serviceInstancesOf r name) := by
  have hpipe : get_service_instances r name q =
      limitStage q.limit
        (tagStage q.tags (healthyStage q.healthy_only (serviceInstancesOf r name))) := by
    unfold get_service_instances limitStage tagStage healthyStage serviceInstancesOf
    rfl
  refine ⟨hpipe, ?_, ?_⟩
  · intro hdef i hi
    rw [hpipe] at hi
    have h2 : i ∈ tagStage q.tags (healthyStage q.healthy_only (serviceInstancesOf r name)) := by
      cases hq : q.limit with
      | none => simpa [limitStage, hq] using hi
      | some n =>
        exact List.take_subset n _ (by simpa [limitStage, hq] using hi)
    have h3 : i ∈ healthyStage q.healthy_only (serviceInstancesOf r name) := by
      cases ht : q.tags with
      | none => simpa [tagStage, ht] using h2
      | some s =>
        simp only [tagStage, ht] at h2
        exact List.mem_of_mem_filter h2
    rw [healthyStage, hdef] at h3
    simp at h3
    exact h3.2
  · intro h1 h2 h3
    rw [hpipe, h1, h2, h3]
    simp [limitStage, tagStage, healthyStage]

theorem get_service_instances_spec_witness :
    (get_service_instances exRegDown "svc" exQueryHealthy =
      limitStage exQueryHealthy.limit
        (tagStage exQueryHealthy.tags
          (healthyStage exQueryHealthy.healthy_only (serviceInstancesOf exRegDown "svc")))) ∧
    (∀ i ∈ get_service_instances exRegDown "svc" exQueryHealthy,
        i.status = InstanceStatus.Up) ∧
    get_service_instances exRegDown "svc" exQueryAll = serviceInstancesOf exRegDown "svc" :=
  ⟨(get_service_instances_spec exRegDown "svc" exQueryHealthy).1,
   (get_service_instances_spec exRegDown "svc" exQueryHealthy).2.1 (by decide),
   (get_service_instances_spec exRegDown "svc" exQueryAll).2.2 (by decide) (by decide)
     (by decide)⟩

/-- C4 counterexample: an unhealthy probe result applied to the `Up`
instance `i1` does transition it to `Down`, but the single emitted event is
`InstanceStatusChanged` (from `update_instance_status`), not
`HealthCheckFailed` as the claim states. -/
theorem apply_health_result_event_counterexample :
    ((apply_health_result exRegUp exInst false 2).2.map ServiceEvent.event_type
      = [EventType.InstanceStatusChanged]) ∧
    (∀ e ∈ (apply_health_result exRegUp exInst false 2).2,
        e.event_type ≠ EventType.HealthCheckFailed) ∧
    ((lookupA (apply_health_result exRegUp exInst false 2).1.instances "i1").map
        ServiceInstance.status = some InstanceStatus.Down) := by
  decide

/-- C4 (amended): applying an active health-check result transitions only on
logical edge changes: when the probe result agrees with the current status
((healthy, `Up`) or (unhealthy, `Down`)) nothing changes and no event is
emitted; in every other case the instance's status becomes `Up` (healthy
probe) or `Down` (unhealthy probe), `last_status_change` is updated, and
exactly one `InstanceStatusChanged` event carrying the previous and new
status is emitted — not `HealthCheckFailed` or `HealthCheckRecovered`. -/
theorem apply_health_result_spec (r : ServiceRegistry) (inst : ServiceInstance)
    (healthy : Bool) (now : Nat) :
    ((healthy = true ∧ inst.status = InstanceStatus.Up) ∨
     (healthy = false ∧ inst.status = InstanceStatus.Down) →
      apply_health_result r inst healthy now = (r, [])) ∧
    (lookupA r.instances inst.id = some inst →
     ¬((healthy = true ∧ inst.status = InstanceStatus.Up) ∨
       (healthy = false ∧ inst.status = InstanceStatus.Down)) →
      apply_health_result r inst healthy now =
        ({ r with
            instances := modifyA r.instances inst.id (fun i =>
              { i with
                  status := if healthy then InstanceStatus.Up else InstanceStatus.Down
                  last_status_change := now }) },
         [{ event_type := EventType.InstanceStatusChanged
            service_name := inst.service_name
            instance_id := some inst.id
            timestamp := now
            details := EventDetails.statusChange inst.status
                         (if healthy then InstanceStatus.Up
                          else InstanceStatus.Down) }])) := by
  constructor
  · intro hsame
    rcases hsame with ⟨hh, hs⟩ | ⟨hh, hs⟩ <;>
      simp [apply_health_result, hh, hs]
  · intro hlook hdiff
    cases healthy with
    | false =>
      have hs : inst.status ≠ InstanceStatus.Down := by
        intro h
        exact hdiff (Or.inr ⟨rfl, h⟩)
      simp [apply_health_result, hs, update_instance_status, hlook]
    | true =>
      have hs : inst.status ≠ InstanceStatus.Up := by
        intro h
        exact hdiff (Or.inl ⟨rfl, h⟩)
      simp [apply_health_result, hs, update_instance_status, hlook]

theorem apply_health_result_spec_witness :
    apply_health_result exRegUp exInst true 2 = (exRegUp, []) ∧
    apply_health_result exRegUp exInst false 2 =
      ({ exRegUp with
          instances := modifyA exRegUp.instances exInst.id (fun i =>
            { i with
                status := InstanceStatus.Down
                last_status_change := 2 }) },
       [{ event_type := EventType.InstanceStatusChanged
          service_name := exInst.service_name
          instance_id := some exInst.id
          timestamp := 2
          details := EventDetails.statusChange exInst.status InstanceStatus.Down }]) :=
  ⟨(apply_health_result_spec exRegUp exInst true 2).1 (Or.inl ⟨rfl, by decide⟩),
   (apply_health_result_spec exRegUp exInst false 2).2 (by decide) (by decide)⟩

/-- C5 counterexample: the register path performs no input validation: a
request with an empty service name and port 0 — which the claim says is not
accepted — is accepted and yields a registered `Up` instance in the index. -/
theorem register_validation_counterexample :
    exBadReq.service_name = "" ∧ exBadReq.port = 0 ∧
    (register_instance ServiceRegistry.empty exBadReq "b1" 0).2.2.status
      = InstanceStatus.Up ∧
    ((lookupA (register_instance ServiceRegistry.empty exBadReq "b1" 0).1.instances
        "b1").map ServiceInstance.id = some "b1") := by
  decide

/-- C5 (amended): `register_instance` accepts every request (no validation of
service name or port is performed; the port is bounded only by its `u16`
type). Given a fresh id it produces an instance with that id, status `Up`,
and the request's fields; it appends it to the instance index and to its
service's instance list — creating the service record when absent — and
emits exactly one event: `ServiceRegistered` when the service did not
previously exist, otherwise `InstanceRegistered`. -/
theorem register_instance_spec (r : ServiceRegistry) (req : RegisterServiceRequest)
    (id : String) (now : Nat) (hfresh : lookupA r.instances id = none) :
    (register_instance r req id now).2.2 =
      { id := id, service_name := req.service_name, host := req.host,
        port := req.port, secure := req.secure.getD false,
        status := InstanceStatus.Up, metadata := req.metadata.getD [],
        tags := req.tags.getD [], health_check := req.health_check,
        registered_at := now, last_heartbeat := now, last_status_change := now } ∧
    (register_instance r req id now).1.instances
      = r.instances ++ [(id, (register_instance r req id now).2.2)] ∧
    (∀ s, lookupA r.services req.service_name = some s →
      lookupA (register_instance r req id now).1.services req.service_name =
        some { s with
                 instances := s.instances ++ [(register_instance r req id now).2.2]
                 updated_at := now } ∧
      (register_instance r req id now).2.1.event_type
        = EventType.InstanceRegistered) ∧
    (lookupA r.services req.service_name = none →
      lookupA (register_instance r req id now).1.services req.service_name =
        some { name := req.service_name
               instances := [(register_instance r req id now).2.2]
               tags := req.tags.getD []
               created_at := now
               updated_at := now } ∧
      (register_instance r req id now).2.1.event_type
        = EventType.ServiceRegistered) := by
  refine ⟨rfl, ?_, ?_, ?_⟩
  · simp [register_instance, insertA_of_lookupA_none _ _ hfresh]
  · intro s hs
    constructor
    · simp [register_instance, hs, lookupA_modifyA_self]
    · simp [register_instance, hs]
  · intro hnone
    constructor
    · simp [register_instance, hnone, lookupA_append_of_none _ hnone, lookupA,
        freshInstance]
    · simp [register_instance, hnone]

theorem register_instance_spec_witness :
    (register_instance ServiceRegistry.empty exReq "i1" 0).1.instances
      = ServiceRegistry.empty.instances
          ++ [("i1", (register_instance ServiceRegistry.empty exReq "i1" 0).2.2)] ∧
    lookupA (register_instance ServiceRegistry.empty exReq "i1" 0).1.services "svc" =
      some { name := "svc"
             instances := [(register_instance ServiceRegistry.empty exReq "i1" 0).2.2]
             tags := []
             created_at := 0
             updated_at := 0 } ∧
    (register_instance ServiceRegistry.empty exReq "i1" 0).2.1.event_type
      = EventType.ServiceRegistered :=
  ⟨(register_instance_spec ServiceRegistry.empty exReq "i1" 0 (by decide)).2.1,
   ((register_instance_spec ServiceRegistry.empty exReq "i1" 0 (by decide)).2.2.2
      (by decide)).1,
   ((register_instance_spec ServiceRegistry.empty exReq "i1" 0 (by decide)).2.2.2
      (by decide)).2⟩

namespace Sdk

theorem getD_mod_mem {α : Type} (l : List α) (k : Nat) (d : α) (h : l ≠ []) :
    l.getD (k % l.length) d ∈ l := by
  have hlen : 0 < l.length := List.length_pos.mpr h
  have hlt : k % l.length < l.length := Nat.mod_lt _ hlen
  rw [List.getD_eq_getElem _ _ hlt]
  exact List.getElem_mem _

theorem target_pool_ne_nil (instances : List ServiceInstance) (h : instances ≠ []) :
    target_pool instances ≠ [] := by
  unfold target_pool
  by_cases hc : (instances.filter ServiceInstance.is_healthy).isEmpty = true
  · simpa [hc] using h
  · have hf : instances.filter ServiceInstance.is_healthy ≠ [] := by
      simpa [List.isEmpty_iff] using hc
    simpa [hc] using hf

theorem select_instance_empty (strategy : LoadBalancingStrategy) (ctr rand : Nat) :
    select_instance [] strategy ctr rand
      = (Except.error (ScoutQuestError.InternalError "Aucune instance disponible"),
         ctr) := by
  simp [select_instance]

theorem select_instance_eq_random (instances : List ServiceInstance)
    (ctr rand : Nat) (h : instances ≠ []) :
    select_instance instances LoadBalancingStrategy.Random ctr rand
      = (Except.ok ((target_pool instances).getD
          (rand % (target_pool instances).length) default), ctr) := by
  have hi : instances.isEmpty = false := by simp [List.isEmpty_iff, h]
  simp [select_instance, hi, target_pool]

theorem select_instance_eq_roundRobin (instances : List ServiceInstance)
    (ctr rand : Nat) (h : instances ≠ []) :
    select_instance instances LoadBalancingStrategy.RoundRobin ctr rand
      = (Except.ok ((target_pool instances).getD
          (ctr % (target_pool instances).length) default), ctr + 1) := by
  have hi : instances.isEmpty = false := by simp [List.isEmpty_iff, h]
  simp [select_instance, hi, target_pool]

theorem select_instance_eq_leastConnections (instances : List ServiceInstance)
    (ctr rand : Nat) (h : instances ≠ []) :
    select_instance instances LoadBalancingStrategy.LeastConnections ctr rand
      = (Except.ok ((target_pool instances).getD 0 default), ctr) := by
  have hi : instances.isEmpty = false := by simp [List.isEmpty_iff, h]
  simp [select_instance, hi, target_pool]

theorem select_instance_eq_weightedRandom (instances : List ServiceInstance)
    (ctr rand : Nat) (h : instances ≠ []) :
    select_instance instances LoadBalancingStrategy.WeightedRandom ctr rand
      = (Except.ok ((target_pool instances).getD
          (rand % (target_pool instances).length) default), ctr) := by
  have hi : instances.isEmpty = false := by simp [List.isEmpty_iff, h]
  simp [select_instance, hi, target_pool]

theorem select_instance_eq_healthyOnly_pos (instances : List ServiceInstance)
    (ctr rand : Nat) (h : instances ≠ [])
    (hh : instances.filter ServiceInstance.is_healthy ≠ []) :
    select_instance instances LoadBalancingStrategy.HealthyOnly ctr rand
      = (Except.ok ((instances.filter ServiceInstance.is_healthy).getD 0 default),
         ctr) := by
  have hi : instances.isEmpty = false := by simp [List.isEmpty_iff, h]
  have hhf : (instances.filter ServiceInstance.is_healthy).isEmpty = false := by
    simp [List.isEmpty_iff, hh]
  simp [select_instance, hi, hhf]

theorem select_instance_eq_healthyOnly_neg (instances : List ServiceInstance)
    (ctr rand : Nat) (h : instances ≠ [])
    (hh : instances.filter ServiceInstance.is_healthy = []) :
    select_instance instances LoadBalancingStrategy.HealthyOnly ctr rand
      = (Except.error (ScoutQuestError.NoHealthyInstances
          ((instances.getD 0 default).service_name)), ctr) := by
  have hi : instances.isEmpty = false := by simp [List.isEmpty_iff, h]
  simp [select_instance, hi, hh]

/-- C7: for every non-empty candidate list, every strategy except
HealthyOnly selects from the pool that is the Up subset whenever that
subset is non-empty and is the full candidate list only when no candidate
is Up; the HealthyOnly strategy only ever returns Up candidates (it never
falls back). -/
theorem select_instance_filtering (instances : List ServiceInstance)
    (strategy : LoadBalancingStrategy) (ctr rand : Nat) (hne : instances ≠ []) :
    (strategy ≠ LoadBalancingStrategy.HealthyOnly →
      ∀ v, (select_instance instances strategy ctr rand).1 = Except.ok v →
        v ∈ target_pool instances) ∧
    (instances.filter ServiceInstance.is_healthy ≠ [] →
      target_pool instances = instances.filter ServiceInstance.is_healthy) ∧
    (instances.filter ServiceInstance.is_healthy = [] →
      target_pool instances = instances) ∧
    (∀ v, (select_instance instances LoadBalancingStrategy.HealthyOnly ctr rand).1
        = Except.ok v → v ∈ instances.filter ServiceInstance.is_healthy) := by
  have hpool := target_pool_ne_nil instances hne
  refine ⟨?_, ?_, ?_, ?_⟩
  · intro hs v hv
    cases strategy with
    | Random =>
      rw [select_instance_eq_random instances ctr rand hne] at hv
      simp only [Except.ok.injEq] at hv
      rw [← hv]
      exact getD_mod_mem _ _ _ hpool
    | RoundRobin =>
      rw [select_instance_eq_roundRobin instances ctr rand hne] at hv
      simp only [Except.ok.injEq] at hv
      rw [← hv]
      exact getD_mod_mem _ _ _ hpool
    | LeastConnections =>
      rw [select_instance_eq_leastConnections instances ctr rand hne] at hv
      simp only [Except.ok.injEq] at hv
      rw [← hv, show (0 : Nat) = 0 % (target_pool instances).length from
        (Nat.zero_mod _).symm]
      exact getD_mod_mem _ _ _ hpool
    | WeightedRandom =>
      rw [select_instance_eq_weightedRandom instances ctr rand hne] at hv
      simp only [Except.ok.injEq] at hv
      rw [← hv]
      exact getD_mod_mem _ _ _ hpool
    | HealthyOnly => exact absurd rfl hs
  · intro hh
    have hhf : (instances.filter ServiceInstance.is_healthy).isEmpty = false := by
      simp [List.isEmpty_iff, hh]
    simp [target_pool, hhf]
  · intro hh
    simp [target_pool, hh]
  · intro v hv
    by_cases hh : instances.filter ServiceInstance.is_healthy = []
    · rw [select_instance_eq_healthyOnly_neg instances ctr rand hne hh] at hv
      simp at hv
    · rw [select_instance_eq_healthyOnly_pos instances ctr rand hne hh] at hv
      simp only [Except.ok.injEq] at hv
      rw [← hv, show (0 : Nat) = 0 % (instances.filter ServiceInstance.is_healthy).length
        from (Nat.zero_mod _).symm]
      exact getD_mod_mem _ _ _ hh

theorem select_instance_filtering_witness :
    exUp1 ∈ target_pool [exUp1, exDown] ∧
    target_pool [exUp1, exDown] = [exUp1, exDown].filter ServiceInstance.is_healthy ∧
    exUp1 ∈ [exUp1, exDown].filter ServiceInstance.is_healthy :=
  ⟨(select_instance_filtering [exUp1, exDown] LoadBalancingStrategy.Random 0 5
      (by decide)).1 (by decide) exUp1 rfl,
   (select_instance_filtering [exUp1, exDown] LoadBalancingStrategy.Random 0 5
      (by decide)).2.1 (by decide),
   (select_instance_filtering [exUp1, exDown] LoadBalancingStrategy.HealthyOnly 0 5
      (by decide)).2.2.2 exUp1 rfl⟩

/-- C8: `select_instance` on an empty candidate list returns the internal
error for every strategy; with the HealthyOnly strategy on a non-empty list
it returns `NoHealthyInstances` carrying the first candidate's service name
exactly when no candidate is Up, and when at least one candidate is Up it
returns an instance whose status is Up. -/
theorem select_instance_errors (instances : List ServiceInstance)
    (strategy : LoadBalancingStrategy) (ctr rand : Nat) :
    (instances = [] →
      (select_instance instances strategy ctr rand).1
        = Except.error (ScoutQuestError.InternalError "Aucune instance disponible")) ∧
    (instances ≠ [] →
      (((select_instance instances LoadBalancingStrategy.HealthyOnly ctr rand).1
          = Except.error (ScoutQuestError.NoHealthyInstances
              ((instances.getD 0 default).service_name)))
        ↔ instances.filter ServiceInstance.is_healthy = [])) ∧
    (instances ≠ [] → instances.filter ServiceInstance.is_healthy ≠ [] →
      ∃ v, (select_instance instances LoadBalancingStrategy.HealthyOnly ctr rand).1
          = Except.ok v ∧ v.status = InstanceStatus.Up) := by
  refine ⟨?_, ?_, ?_⟩
  · intro h
    subst h
    rw [select_instance_empty]
  · intro hne
    constructor
    · intro herr
      by_contra hh
      rw [select_instance_eq_healthyOnly_pos instances ctr rand hne hh] at herr
      simp at herr
    · intro hh
      rw [select_instance_eq_healthyOnly_neg instances ctr rand hne hh]
  · intro hne hh
    rw [select_instance_eq_healthyOnly_pos instances ctr rand hne hh]
    refine ⟨_, rfl, ?_⟩
    have hmem : (instances.filter ServiceInstance.is_healthy).getD 0 default
        ∈ instances.filter ServiceInstance.is_healthy := by
      rw [show (0 : Nat) = 0 % (instances.filter ServiceInstance.is_healthy).length
        from (Nat.zero_mod _).symm]
      exact getD_mod_mem _ _ _ hh
    have := List.of_mem_filter hmem
    simpa [ServiceInstance.is_healthy] using this

theorem select_instance_errors_witness :
    (select_instance ([] : List ServiceInstance) LoadBalancingStrategy.Random 0 0).1
      = Except.error (ScoutQuestError.InternalError "Aucune instance disponible") ∧
    ((select_instance [exDown] LoadBalancingStrategy.HealthyOnly 0 0).1
      = Except.error (ScoutQuestError.NoHealthyInstances
          (([exDown].getD 0 default).service_name))) ∧
    ∃ v, (select_instance [exUp1, exDown] LoadBalancingStrategy.HealthyOnly 0 0).1
        = Except.ok v ∧ v.status = InstanceStatus.Up :=
  ⟨(select_instance_errors [] LoadBalancingStrategy.Random 0 0).1 rfl,
   ((select_instance_errors [exDown] LoadBalancingStrategy.Random 0 0).2.1
      (by decide)).mpr (by decide),
   (select_instance_errors [exUp1, exDown] LoadBalancingStrategy.Random 0 0).2.2
      (by decide) (by decide)⟩

theorem getD_range_map {α : Type} (l : List α) (d : α) :
    (List.range l.length).map (fun i => l.getD i d) = l := by
  apply List.ext_getElem
  · simp
  · intro i h1 h2
    simp [List.getD_eq_getElem _ _ h2, List.getElem?_eq_getElem h2]

theorem range_add_mod_perm (n c : Nat) (hn : 0 < n) :
    ((List.range n).map (fun i => (c + i) % n)).Perm (List.range n) := by
  have hsub : ((List.range n).map (fun i => (c + i) % n)) ⊆ List.range n := by
    intro x hx
    simp only [List.mem_map, List.mem_range] at hx
    obtain ⟨i, _, rfl⟩ := hx
    simp only [List.mem_range]
    exact Nat.mod_lt _ hn
  have hnodup : ((List.range n).map (fun i => (c + i) % n)).Nodup := by
    refine List.Nodup.map_on ?_ (List.nodup_range _)
    intro x hx y hy hxy
    simp only [List.mem_range] at hx hy
    rcases Nat.le_total x y with hle | hle
    · have hdvd : n ∣ (c + y) - (c + x) :=
        (Nat.modEq_iff_dvd' (by omega)).mp hxy
      have he : (c + y) - (c + x) = y - x := by omega
      rw [he] at hdvd
      have h0 : y - x = 0 := Nat.eq_zero_of_dvd_of_lt hdvd (by omega)
      omega
    · have hdvd : n ∣ (c + x) - (c + y) :=
        (Nat.modEq_iff_dvd' (by omega)).mp hxy.symm
      have he : (c + x) - (c + y) = x - y := by omega
      rw [he] at hdvd
      have h0 : x - y = 0 := Nat.eq_zero_of_dvd_of_lt hdvd (by omega)
      omega
  have hsp := List.subperm_of_subset hnodup hsub
  exact hsp.perm_of_length_le (by simp)

theorem rr_select_run_eq (instances : List ServiceInstance) (hne : instances ≠ []) :
    ∀ (n c : Nat),
      rr_select_run instances c n =
        (List.range n).map (fun i =>
          Except.ok ((target_pool instances).getD
            ((c + i) % (target_pool instances).length) default)) := by
  intro n
  induction n with
  | zero => intro c; simp [rr_select_run]
  | succ m ih =>
    intro c
    rw [rr_select_run, select_instance_eq_roundRobin instances c 0 hne]
    rw [ih (c + 1), List.range_succ_eq_map, List.map_cons, List.map_map]
    refine congrArg₂ List.cons (by simp) ?_
    refine List.map_congr_left fun i _ => ?_
    simp only [Function.comp]
    rw [show c + 1 + i = c + (i + 1) by omega]

/-- C9: for a stable candidate list, `n` consecutive RoundRobin selections
(with the per-service counter threaded between the calls, `n` being the
size of the pool the strategy draws from) return the candidate at index
`(counter + i) % n` on the i-th call, and hence return each pool candidate
exactly once: the selected instances are a permutation of the pool. -/
theorem round_robin_fairness (instances : List ServiceInstance) (c : Nat)
    (hne : instances ≠ []) :
    rr_select_run instances c (target_pool instances).length
      = (List.range (target_pool instances).length).map (fun i =>
          Except.ok ((target_pool instances).getD
            ((c + i) % (target_pool instances).length) default)) ∧
    ((List.range (target_pool instances).length).map (fun i =>
        (target_pool instances).getD
          ((c + i) % (target_pool instances).length) default)).Perm
      (target_pool instances) := by
  have hpool := target_pool_ne_nil instances hne
  have hlen : 0 < (target_pool instances).length := List.length_pos.mpr hpool
  refine ⟨rr_select_run_eq instances hne _ c, ?_⟩
  have hperm :=
    (range_add_mod_perm (target_pool instances).length c hlen).map
      (fun j => (target_pool instances).getD j default)
  rw [List.map_map, getD_range_map] at hperm
  simpa [Function.comp] using hperm

theorem round_robin_fairness_witness :
    rr_select_run [exUp1, exUp2, exDown] 0 (target_pool [exUp1, exUp2, exDown]).length
      = (List.range (target_pool [exUp1, exUp2, exDown]).length).map (fun i =>
          Except.ok ((target_pool [exUp1, exUp2, exDown]).getD
            ((0 + i) % (target_pool [exUp1, exUp2, exDown]).length) default)) ∧
    ((List.range (target_pool [exUp1, exUp2, exDown]).length).map (fun i =>
        (target_pool [exUp1, exUp2, exDown]).getD
          ((0 + i) % (target_pool [exUp1, exUp2, exDown]).length) default)).Perm
      (target_pool [exUp1, exUp2, exDown]) :=
  round_robin_fairness [exUp1, exUp2, exDown] 0 (by decide)

theorem call_loop_success {α : Type} (tryCall : Nat → Except ScoutQuestError α)
    (ra rd k : Nat) (v : α) :
    ∀ (d a : Nat), k - a = d → a ≤ k → k ≤ ra →
      tryCall k = Except.ok v →
      (∀ j, a ≤ j → j < k → ∃ e, tryCall j = Except.error e) →
      call_loop tryCall ra rd a
        = some (Except.ok v, (List.range (k - a)).map (fun i => rd * (a + i))) := by
  intro d
  induction d with
  | zero =>
    intro a hd ha hk htry _
    have hak : a = k := by omega
    subst hak
    rw [call_loop]
    simp [Nat.not_lt.mpr hk, htry]
  | succ m ih =>
    intro a hd ha hk htry hfail
    have hlt : a < k := by omega
    obtain ⟨e, he⟩ := hfail a le_rfl hlt
    rw [call_loop]
    have hra : ¬ ra < a := by omega
    have hne : a ≠ ra := by omega
    simp only [hra, dite_false, he, hne, if_false]
    rw [ih (a + 1) (by omega) (by omega) hk htry
      (fun j hj1 hj2 => hfail j (by omega) hj2)]
    simp only [Option.map_some]
    refine congrArg some (congrArg _ ?_)
    have hrange : k - a = (k - (a + 1)) + 1 := by omega
    rw [hrange, List.range_succ_eq_map, List.map_cons, List.map_map]
    refine congrArg₂ List.cons (by simp) ?_
    refine List.map_congr_left fun i _ => ?_
    simp only [Function.comp]
    rw [show a + (i + 1) = a + 1 + i by omega]

theorem call_loop_all_fail {α : Type} (tryCall : Nat → Except ScoutQuestError α)
    (ra rd : Nat) (e : ScoutQuestError) :
    ∀ (d a : Nat), ra - a = d → 1 ≤ a → a ≤ ra →
      tryCall ra = Except.error e →
      (∀ j, a ≤ j → j ≤ ra → ∃ e2, tryCall j = Except.error e2) →
      call_loop tryCall ra rd a
        = some (Except.error e, (List.range (ra - a)).map (fun i => rd * (a + i))) := by
  intro d
  induction d with
  | zero =>
    intro a hd _ hk htry _
    have hak : a = ra := by omega
    subst hak
    rw [call_loop]
    simp [Nat.not_lt.mpr hk, htry]
  | succ m ih =>
    intro a hd h1 hk htry hfail
    have hlt : a < ra := by omega
    obtain ⟨e2, he2⟩ := hfail a le_rfl (by omega)
    rw [call_loop]
    have hra : ¬ ra < a := by omega
    have hne : a ≠ ra := by omega
    simp only [hra, dite_false, he2, hne, if_false]
    rw [ih (a + 1) (by omega) (by omega) (by omega) htry
      (fun j hj1 hj2 => hfail j (by omega) hj2)]
    simp only [Option.map_some]
    refine congrArg some (congrArg _ ?_)
    have hrange : ra - a = (ra - (a + 1)) + 1 := by omega
    rw [hrange, List.range_succ_eq_map, List.map_cons, List.map_map]
    refine congrArg₂ List.cons (by simp) ?_
    refine List.map_congr_left fun i _ => ?_
    simp only [Function.comp]
    rw [show a + (i + 1) = a + 1 + i by omega]

/-- C10: the retry wrapper makes at most `retry_attempts` attempts, one
oracle call per attempt number (each attempt is a fresh
resolve-and-pick-then-request, modelled by indexing the attempt oracle);
the first successful attempt's value is returned immediately, after sleeps
of `retry_delay * 1, ..., retry_delay * (k-1)` between the failed attempts;
when every attempt fails, the intermediate errors are swallowed and exactly
the final attempt's error is returned. -/
theorem call_service_retry_spec {α : Type}
    (tryCall : Nat → Except ScoutQuestError α) (ra rd : Nat) :
    (∀ k v, 1 ≤ k → k ≤ ra → tryCall k = Except.ok v →
      (∀ j, 1 ≤ j → j < k → ∃ e, tryCall j = Except.error e) →
      call_service tryCall ra rd
        = some (Except.ok v, (List.range (k - 1)).map (fun i => rd * (1 + i)))) ∧
    (∀ e, 1 ≤ ra → tryCall ra = Except.error e →
      (∀ j, 1 ≤ j → j ≤ ra → ∃ e2, tryCall j = Except.error e2) →
      call_service tryCall ra rd
        = some (Except.error e, (List.range (ra - 1)).map (fun i => rd * (1 + i)))) := by
  constructor
  · intro k v h1 h2 htry hfail
    exact call_loop_success tryCall ra rd k v (k - 1) 1 rfl h1 h2 htry hfail
  · intro e h1 htry hfail
    exact call_loop_all_fail tryCall ra rd e (ra - 1) 1 rfl le_rfl h1 htry hfail

theorem call_service_retry_spec_witness :
    call_service exTryCall 3 10
      = some (Except.ok 42, (List.range (2 - 1)).map (fun i => 10 * (1 + i))) ∧
    call_service exTryCallFail 3 10
      = some (Except.error ScoutQuestError.ServerUnavailable,
              (List.range (3 - 1)).map (fun i => 10 * (1 + i))) :=
  ⟨(call_service_retry_spec exTryCall 3 10).1 2 42 (by omega) (by omega) rfl
      (fun j hj1 hj2 =>
        ⟨ScoutQuestError.Timeout, by
          have hj : j = 1 := by omega
          rw [hj]
          rfl⟩),
   (call_service_retry_spec exTryCallFail 3 10).2 ScoutQuestError.ServerUnavailable
      (by omega) rfl
      (fun j _ _ => ⟨ScoutQuestError.ServerUnavailable, rfl⟩)⟩

end Sdk

/-! ### Catalog coherence: preservation by every lifecycle mutation -/

theorem coherent_empty : Coherent ServiceRegistry.empty := by
  constructor <;> simp [ServiceRegistry.empty]

theorem coherent_modify_instance (r : ServiceRegistry) (id : String)
    (f : ServiceInstance → ServiceInstance)
    (hid : ∀ i, (f i).id = i.id) (hsn : ∀ i, (f i).service_name = i.service_name)
    (h : Coherent r) :
    Coherent { r with instances := modifyA r.instances id f } := by
  cases hl : lookupA r.instances id with
  | none =>
    rw [modifyA_of_lookupA_none hl]
    exact h
  | some v =>
    constructor
    · rw [modifyA_keys]
      exact h.inst_keys_nodup
    · exact h.serv_keys_nodup
    · intro p hp
      rcases (mem_modifyA_iff h.inst_keys_nodup hl f).mp hp with ⟨hm, _⟩ | rfl
      · exact h.inst_key_id p hm
      · show (f v).id = id
        rw [hid v]
        exact h.inst_key_id (id, v) (lookupA_mem hl)
    · intro p hp
      rcases (mem_modifyA_iff h.inst_keys_nodup hl f).mp hp with ⟨hm, _⟩ | rfl
      · exact h.inst_linked p hm
      · obtain ⟨s, hs, hmem⟩ := h.inst_linked (id, v) (lookupA_mem hl)
        exact ⟨s, by rw [show ((id, f v) : String × ServiceInstance).2.service_name
            = v.service_name from hsn v]; exact hs, hmem⟩
    · exact h.serv_nonempty
    · exact h.serv_inst_name
    · intro q hq i hi
      obtain ⟨v2, hv2, hname⟩ := h.serv_inst_index q hq i hi
      by_cases hik : i.id = id
      · refine ⟨f v, ?_, ?_⟩
        · rw [hik, lookupA_modifyA_self, hl]
          rfl
        · rw [hsn v]
          rw [hik, hl] at hv2
          injection hv2 with hv2
          rw [hv2]
          exact hname
      · exact ⟨v2, by rw [lookupA_modifyA_ne _ f hik]; exact hv2, hname⟩

theorem coherent_update_heartbeat (r : ServiceRegistry) (id : String) (now : Nat)
    (h : Coherent r) : Coherent (update_heartbeat r id now).1 := by
  cases hl : lookupA r.instances id with
  | none =>
    have hcomp : (update_heartbeat r id now).1 = r := by
      simp [update_heartbeat, hl]
    rw [hcomp]
    exact h
  | some inst =>
    by_cases hst : inst.status = InstanceStatus.Up
    · have hcomp : (update_heartbeat r id now).1 =
        { r with instances := modifyA r.instances id (fun i =>
            { i with last_heartbeat := now }) } := by
        simp [update_heartbeat, hl, hst]
      rw [hcomp]
      exact coherent_modify_instance r id _ (fun i => rfl) (fun i => rfl) h
    · have hcomp : (update_heartbeat r id now).1 =
        { r with instances := modifyA r.instances id (fun i =>
            { i with
                last_heartbeat := now
                status := InstanceStatus.Up
                last_status_change := now }) } := by
        simp [update_heartbeat, hl, hst]
      rw [hcomp]
      exact coherent_modify_instance r id _ (fun i => rfl) (fun i => rfl) h

theorem coherent_update_status (r : ServiceRegistry) (id : String)
    (st : InstanceStatus) (now : Nat) (h : Coherent r) :
    Coherent (update_instance_status r id st now).1 := by
  cases hl : lookupA r.instances id with
  | none =>
    have hcomp : (update_instance_status r id st now).1 = r := by
      simp [update_instance_status, hl]
    rw [hcomp]
    exact h
  | some inst =>
    have hcomp : (update_instance_status r id st now).1 =
        { r with instances := modifyA r.instances id (fun i =>
            { i with status := st, last_status_change := now }) } := by
      simp [update_instance_status, hl]
    rw [hcomp]
    exact coherent_modify_instance r id _ (fun i => rfl) (fun i => rfl) h

theorem register_components (r : ServiceRegistry) (req : RegisterServiceRequest)
    (id : String) (now : Nat) :
    (register_instance r req id now).1 =
      { r with
          instances := insertA r.instances id (freshInstance req id now)
          services :=
            if (lookupA r.services req.service_name).isSome then
              modifyA r.services req.service_name (fun service =>
                { service with
                    instances := service.instances ++ [freshInstance req id now]
                    updated_at := now })
            else
              r.services ++ [(req.service_name,
                { name := req.service_name
                  instances := [freshInstance req id now]
                  tags := (freshInstance req id now).tags
                  created_at := now
                  updated_at := now })] } := rfl

theorem coherent_register (r : ServiceRegistry) (req : RegisterServiceRequest)
    (id : String) (now : Nat) (hfresh : lookupA r.instances id = none)
    (h : Coherent r) : Coherent (register_instance r req id now).1 := by
  have hid_not : id ∉ r.instances.map Prod.fst := (lookupA_eq_none_iff _ _).mp hfresh
  have hinsert : insertA r.instances id (freshInstance req id now)
      = r.instances ++ [(id, freshInstance req id now)] :=
    insertA_of_lookupA_none _ _ hfresh
  rw [register_components, hinsert]
  have hkeys : ((r.instances ++ [(id, freshInstance req id now)]).map Prod.fst).Nodup := by
    rw [List.map_append]
    refine List.Nodup.append h.inst_keys_nodup (List.nodup_singleton id) ?_
    intro x hx hy
    simp only [List.map_cons, List.map_nil, List.mem_singleton] at hy
    subst hy
    exact hid_not hx
  have hkeyid : ∀ p ∈ r.instances ++ [(id, freshInstance req id now)], p.2.id = p.1 := by
    intro p hp
    rcases List.mem_append.mp hp with hm | hm
    · exact h.inst_key_id p hm
    · simp only [List.mem_singleton] at hm
      subst hm
      rfl
  have hnewlook : lookupA (r.instances ++ [(id, freshInstance req id now)]) id
      = some (freshInstance req id now) := by
    rw [lookupA_append_of_none _ hfresh]
    simp [lookupA]
  cases hs : lookupA r.services req.service_name with
  | some s =>
    rw [if_pos (show (some s).isSome = true from rfl)]
    constructor
    · exact hkeys
    · rw [modifyA_keys]
      exact h.serv_keys_nodup
    · exact hkeyid
    · intro p hp
      rcases List.mem_append.mp hp with hm | hm
      · obtain ⟨s2, hs2, hmem2⟩ := h.inst_linked p hm
        by_cases hn : p.2.service_name = req.service_name
        · rw [hn, hs, Option.some.injEq] at hs2
          subst hs2
          refine ⟨{ s with instances := s.instances ++ [freshInstance req id now],
                           updated_at := now }, ?_, ?_⟩
          · rw [hn, lookupA_modifyA_self, hs]
            rfl
          · simp only [Service.instanceIds, List.map_append] at hmem2 ⊢
            exact List.mem_append_left _ hmem2
        · exact ⟨s2, by rw [lookupA_modifyA_ne _ _ hn]; exact hs2, hmem2⟩
      · simp only [List.mem_singleton] at hm
        subst hm
        refine ⟨{ s with instances := s.instances ++ [freshInstance req id now],
                         updated_at := now }, ?_, ?_⟩
        · show lookupA (modifyA r.services req.service_name _)
            (freshInstance req id now).service_name = _
          rw [show (freshInstance req id now).service_name = req.service_name from rfl,
            lookupA_modifyA_self, hs]
          rfl
        · simp [Service.instanceIds, freshInstance]
    · intro q hq
      rcases (mem_modifyA_iff h.serv_keys_nodup hs _).mp hq with ⟨hm, _⟩ | rfl
      · exact h.serv_nonempty q hm
      · simp
    · intro q hq i hi
      rcases (mem_modifyA_iff h.serv_keys_nodup hs _).mp hq with ⟨hm, _⟩ | rfl
      · exact h.serv_inst_name q hm i hi
      · rcases List.mem_append.mp hi with hm2 | hm2
        · exact h.serv_inst_name (req.service_name, s) (lookupA_mem hs) i hm2
        · simp only [List.mem_singleton] at hm2
          subst hm2
          rfl
    · intro q hq i hi
      rcases (mem_modifyA_iff h.serv_keys_nodup hs _).mp hq with ⟨hm, _⟩ | rfl
      · obtain ⟨v, hv, hname⟩ := h.serv_inst_index q hm i hi
        exact ⟨v, lookupA_append_left _ hv, hname⟩
      · rcases List.mem_append.mp hi with hm2 | hm2
        · obtain ⟨v, hv, hname⟩ :=
            h.serv_inst_index (req.service_name, s) (lookupA_mem hs) i hm2
          exact ⟨v, lookupA_append_left _ hv, hname⟩
        · simp only [List.mem_singleton] at hm2
          subst hm2
          exact ⟨freshInstance req id now, hnewlook, rfl⟩
  | none =>
    rw [if_neg (by simp : ¬((none : Option Service).isSome = true))]
    have hn_not : req.service_name ∉ r.services.map Prod.fst :=
      (lookupA_eq_none_iff _ _).mp hs
    have hnewserv : lookupA (r.services ++ [(req.service_name,
        { name := req.service_name
          instances := [freshInstance req id now]
          tags := (freshInstance req id now).tags
          created_at := now
          updated_at := now })]) req.service_name = some
        { name := req.service_name
          instances := [freshInstance req id now]
          tags := (freshInstance req id now).tags
          created_at := now
          updated_at := now } := by
      rw [lookupA_append_of_none _ hs]
      simp [lookupA]
    constructor
    · exact hkeys
    · rw [List.map_append]
      refine List.Nodup.append h.serv_keys_nodup (List.nodup_singleton _) ?_
      intro x hx hy
      simp only [List.map_cons, List.map_nil, List.mem_singleton] at hy
      subst hy
      exact hn_not hx
    · exact hkeyid
    · intro p hp
      rcases List.mem_append.mp hp with hm | hm
      · obtain ⟨s2, hs2, hmem2⟩ := h.inst_linked p hm
        exact ⟨s2, lookupA_append_left _ hs2, hmem2⟩
      · simp only [List.mem_singleton] at hm
        subst hm
        refine ⟨{ name := req.service_name
                  instances := [freshInstance req id now]
                  tags := (freshInstance req id now).tags
                  created_at := now
                  updated_at := now }, ?_, ?_⟩
        · show lookupA _ (freshInstance req id now).service_name = _
          rw [show (freshInstance req id now).service_name = req.service_name from rfl]
          exact hnewserv
        · simp [Service.instanceIds, freshInstance]
    · intro q hq
      rcases List.mem_append.mp hq with hm | hm
      · exact h.serv_nonempty q hm
      · simp only [List.mem_singleton] at hm
        subst hm
        simp
    · intro q hq i hi
      rcases List.mem_append.mp hq with hm | hm
      · exact h.serv_inst_name q hm i hi
      · simp only [List.mem_singleton] at hm
        subst hm
        simp only [List.mem_singleton] at hi
        subst hi
        rfl
    · intro q hq i hi
      rcases List.mem_append.mp hq with hm | hm
      · obtain ⟨v, hv, hname⟩ := h.serv_inst_index q hm i hi
        exact ⟨v, lookupA_append_left _ hv, hname⟩
      · simp only [List.mem_singleton] at hm
        subst hm
        simp only [List.mem_singleton] at hi
        subst hi
        exact ⟨freshInstance req id now, hnewlook, rfl⟩

theorem deregister_components (r : ServiceRegistry) (id : String) (now : Nat)
    (inst : ServiceInstance) (hl : lookupA r.instances id = some inst)
    (s0 : Service) (hs0 : lookupA r.services inst.service_name = some s0) :
    (deregister_instance r id now).1 =
      if (s0.instances.filter
          (fun (i : ServiceInstance) => decide (i.id ≠ id))).isEmpty then
        { r with
            instances := removeA r.instances id
            services := removeA r.services inst.service_name }
      else
        { r with
            instances := removeA r.instances id
            services := modifyA r.services inst.service_name (fun s =>
              { s with
                  instances := s.instances.filter
                    (fun (i : ServiceInstance) => decide (i.id ≠ id))
                  updated_at := now }) } := by
  by_cases hrem : (s0.instances.filter
      (fun (i : ServiceInstance) => decide (i.id ≠ id))).isEmpty = true
  · have hall : ∀ a ∈ s0.instances, a.id = id := by simpa using hrem
    simp [deregister_instance, hl, hs0]
    rw [if_pos hall, if_pos hall]
  · have hnall : ¬ ∀ a ∈ s0.instances, a.id = id := by simpa using hrem
    simp [deregister_instance, hl, hs0]
    rw [if_neg hnall, if_neg hnall]

theorem coherent_deregister (r : ServiceRegistry) (id : String) (now : Nat)
    (h : Coherent r) : Coherent (deregister_instance r id now).1 := by
  cases hl : lookupA r.instances id with
  | none =>
    have hcomp : (deregister_instance r id now).1 = r := by
      simp [deregister_instance, hl]
    rw [hcomp]
    exact h
  | some inst =>
    obtain ⟨s0, hs0, hid0⟩ := h.inst_linked (id, inst) (lookupA_mem hl)
    rw [deregister_components r id now inst hl s0 hs0]
    have hrk : ((removeA r.instances id).map Prod.fst).Nodup :=
      ((removeA_sublist _ _).map Prod.fst).nodup h.inst_keys_nodup
    have hmemr : ∀ {p : String × ServiceInstance}, p ∈ removeA r.instances id →
        p ∈ r.instances ∧ p.1 ≠ id :=
      fun hp => (mem_removeA_iff h.inst_keys_nodup).mp hp
    have hlook_ne : ∀ {k : String} {v : ServiceInstance}, k ≠ id →
        lookupA r.instances k = some v →
        lookupA (removeA r.instances id) k = some v := by
      intro k v hk hv
      rw [lookupA_removeA_ne _ hk]
      exact hv
    have hserv_id_ne : ∀ {q : String × Service}, q ∈ r.services →
        q.1 ≠ inst.service_name → ∀ i ∈ q.2.instances, i.id ≠ id := by
      intro q hq hqn i hi hik
      obtain ⟨v, hv, hname⟩ := h.serv_inst_index q hq i hi
      rw [hik, hl, Option.some.injEq] at hv
      subst hv
      exact hqn hname.symm
    by_cases hrem : (s0.instances.filter
        (fun (i : ServiceInstance) => decide (i.id ≠ id))).isEmpty = true
    · rw [if_pos hrem]
      have hall : ∀ i ∈ s0.instances, i.id = id := by
        intro i hi
        have hnil : s0.instances.filter
            (fun (i : ServiceInstance) => decide (i.id ≠ id)) = [] :=
          List.isEmpty_iff.mp hrem
        have hx := List.filter_eq_nil_iff.mp hnil i hi
        simpa using hx
      constructor
      · exact hrk
      · exact ((removeA_sublist _ _).map Prod.fst).nodup h.serv_keys_nodup
      · intro p hp
        exact h.inst_key_id p (hmemr hp).1
      · intro p hp
        obtain ⟨hm, hne⟩ := hmemr hp
        obtain ⟨s2, hs2, hmem2⟩ := h.inst_linked p hm
        by_cases hn : p.2.service_name = inst.service_name
        · exfalso
          rw [hn, hs0, Option.some.injEq] at hs2
          subst hs2
          simp only [Service.instanceIds] at hmem2
          obtain ⟨i, hi, hiid⟩ := List.mem_map.mp hmem2
          exact hne (by rw [← hiid]; exact hall i hi)
        · exact ⟨s2, by rw [lookupA_removeA_ne _ hn]; exact hs2, hmem2⟩
      · intro q hq
        exact h.serv_nonempty q ((mem_removeA_iff h.serv_keys_nodup).mp hq).1
      · intro q hq i hi
        exact h.serv_inst_name q ((mem_removeA_iff h.serv_keys_nodup).mp hq).1 i hi
      · intro q hq i hi
        obtain ⟨hm, hqn⟩ := (mem_removeA_iff h.serv_keys_nodup).mp hq
        obtain ⟨v, hv, hname⟩ := h.serv_inst_index q hm i hi
        exact ⟨v, hlook_ne (hserv_id_ne hm hqn i hi) hv, hname⟩
    · rw [if_neg hrem]
      have hne_nil : s0.instances.filter
          (fun (i : ServiceInstance) => decide (i.id ≠ id)) ≠ [] :=
        fun hcon => hrem (List.isEmpty_iff.mpr hcon)
      constructor
      · exact hrk
      · rw [modifyA_keys]
        exact h.serv_keys_nodup
      · intro p hp
        exact h.inst_key_id p (hmemr hp).1
      · intro p hp
        obtain ⟨hm, hne⟩ := hmemr hp
        obtain ⟨s2, hs2, hmem2⟩ := h.inst_linked p hm
        by_cases hn : p.2.service_name = inst.service_name
        · rw [hn, hs0, Option.some.injEq] at hs2
          subst hs2
          refine ⟨{ s0 with
                     instances := s0.instances.filter
                       (fun (i : ServiceInstance) => decide (i.id ≠ id))
                     updated_at := now }, ?_, ?_⟩
          · rw [hn, lookupA_modifyA_self, hs0]
            rfl
          · simp only [Service.instanceIds] at hmem2 ⊢
            obtain ⟨i, hi, hiid⟩ := List.mem_map.mp hmem2
            refine List.mem_map.mpr ⟨i, List.mem_filter.mpr ⟨hi, ?_⟩, hiid⟩
            simp only [decide_eq_true_eq]
            rw [hiid]
            exact hne
        · exact ⟨s2, by rw [lookupA_modifyA_ne _ _ hn]; exact hs2, hmem2⟩
      · intro q hq
        rcases (mem_modifyA_iff h.serv_keys_nodup hs0 _).mp hq with ⟨hm, _⟩ | rfl
        · exact h.serv_nonempty q hm
        · exact hne_nil
      · intro q hq i hi
        rcases (mem_modifyA_iff h.serv_keys_nodup hs0 _).mp hq with ⟨hm, _⟩ | rfl
        · exact h.serv_inst_name q hm i hi
        · exact h.serv_inst_name (inst.service_name, s0) (lookupA_mem hs0) i
            (List.mem_of_mem_filter hi)
      · intro q hq i hi
        rcases (mem_modifyA_iff h.serv_keys_nodup hs0 _).mp hq with ⟨hm, hqn⟩ | rfl
        · obtain ⟨v, hv, hname⟩ := h.serv_inst_index q hm i hi
          exact ⟨v, hlook_ne (hserv_id_ne hm hqn i hi) hv, hname⟩
        · have hik : i.id ≠ id := by
            have hx := (List.mem_filter.mp hi).2
            simpa using hx
          obtain ⟨v, hv, hname⟩ :=
            h.serv_inst_index (inst.service_name, s0) (lookupA_mem hs0) i
              (List.mem_of_mem_filter hi)
          exact ⟨v, hlook_ne hik hv, hname⟩

theorem coherent_of_reachable {r : ServiceRegistry} (h : Reachable r) :
    Coherent r := by
  induction h with
  | init => exact coherent_empty
  | step hr hs ih =>
    cases hs with
    | register req id now hfresh => exact coherent_register _ req id now hfresh ih
    | deregister id now => exact coherent_deregister _ id now ih
    | heartbeat id now => exact coherent_update_heartbeat _ id now ih
    | status id st now => exact coherent_update_status _ id st now ih

/-- C6: in every state reachable by any sequence of register, deregister,
heartbeat and status-update operations, every instance id in the instance
index appears in exactly one service's instance list; conversely every id
listed in a service record is present in the instance index; every service
record has a non-empty instance list; and a deregistration that removes a
service's last instance removes the service record in the same mutation. -/
theorem registry_catalog_invariants (r : ServiceRegistry) (h : Reachable r) :
    (∀ p ∈ r.instances, ∃ q, q ∈ r.services ∧ p.1 ∈ q.2.instanceIds ∧
        ∀ q2 ∈ r.services, p.1 ∈ q2.2.instanceIds → q2 = q) ∧
    (∀ q ∈ r.services, ∀ i ∈ q.2.instances,
        (lookupA r.instances i.id).isSome = true) ∧
    (∀ q ∈ r.services, q.2.instances ≠ []) ∧
    (∀ (id : String) (now : Nat) (inst : ServiceInstance) (s : Service),
      lookupA r.instances id = some inst →
      lookupA r.services inst.service_name = some s →
      (∀ i ∈ s.instances, i.id = id) →
      lookupA (deregister_instance r id now).1.services inst.service_name
        = none) := by
  have hc := coherent_of_reachable h
  refine ⟨?_, ?_, hc.serv_nonempty, ?_⟩
  · intro p hp
    obtain ⟨s, hs, hmem⟩ := hc.inst_linked p hp
    refine ⟨(p.2.service_name, s), lookupA_mem hs, hmem, ?_⟩
    intro q2 hq2 hmem2
    simp only [Service.instanceIds] at hmem2
    obtain ⟨i, hi, hiid⟩ := List.mem_map.mp hmem2
    obtain ⟨v, hv, hvname⟩ := hc.serv_inst_index q2 hq2 i hi
    have hpv : lookupA r.instances p.1 = some p.2 :=
      lookupA_of_mem_nodup hc.inst_keys_nodup hp
    rw [hiid, hpv, Option.some.injEq] at hv
    subst hv
    exact eq_of_mem_nodup_keys hc.serv_keys_nodup hq2 (lookupA_mem hs) hvname.symm
  · intro q hq i hi
    obtain ⟨v, hv, _⟩ := hc.serv_inst_index q hq i hi
    rw [hv]
    rfl
  · intro id now inst s hl hs hall
    have hrem : (s.instances.filter
        (fun (i : ServiceInstance) => decide (i.id ≠ id))).isEmpty = true := by
      rw [List.isEmpty_iff, List.filter_eq_nil_iff]
      intro a ha
      simp [hall a ha]
    rw [deregister_components r id now inst hl s hs, if_pos hrem]
    exact lookupA_removeA_self hc.serv_keys_nodup _

theorem registry_catalog_invariants_witness :
    Reachable exRegUp ∧
    (∀ q ∈ exRegUp.services, q.2.instances ≠ []) ∧
    (∀ p ∈ exRegUp.instances, ∃ q, q ∈ exRegUp.services ∧ p.1 ∈ q.2.instanceIds ∧
        ∀ q2 ∈ exRegUp.services, p.1 ∈ q2.2.instanceIds → q2 = q) := by
  have hreach : Reachable exRegUp :=
    Reachable.step Reachable.init
      (Step.register ServiceRegistry.empty exReq "i1" 0 rfl)
  exact ⟨hreach, (registry_catalog_invariants exRegUp hreach).2.2.1,
    (registry_catalog_invariants exRegUp hreach).1⟩

end ScoutQuest
